import Mathlib

/-!
Shallow embedding of the ProductNameGenerator repository.

The repository consists of two Python files:
* gename.py — the command-line tool: CVCVGenerator, the NameFilter hierarchy,
  get_filter, NameEngine (run and export_grouped) plus CLI glue;
* main.py — the desktop GUI, which embeds its own copy of the same
  generator / filter / engine pipeline.

Python strings are modelled as lists of characters, generators as the finite
lists they enumerate, and exceptions as Except / Option results.  File-system
effects of export_grouped are modelled by an explicit record of the deletions
and writes it performs against a given list of pre-existing file names.
-/

namespace ProductNameGenerator

/-- Python strings are modelled as lists of characters. -/
abbrev PyStr : Type := List Char

/-- Truthiness of an optional Python string argument: None and the empty
string are falsy, every non-empty string is truthy. -/
def pyTruthy (o : Option PyStr) : Bool := !(o.getD []).isEmpty

/-- Python substring containment: the semantics of the expression
needle in hay for two Python strings (contiguous substring test). -/
def isSubstring (needle : PyStr) : PyStr → Bool
  | [] => needle.isPrefixOf []
  | c :: rest => needle.isPrefixOf (c :: rest) || isSubstring needle rest

/-- Python str.lower applied characterwise; the repository only ever
lowercases ASCII letters, which Char.toLower models exactly. -/
def pyLower (s : PyStr) : PyStr := s.map Char.toLower

/-- Model of the Python expression sorted(set(s)): the distinct characters
of s listed in increasing code-point order. -/
def pySortedSet (s : PyStr) : PyStr := (s.dedup).insertionSort (fun a b => a ≤ b)

/-- The normalization used for both letter sets in CVCVGenerator.__init__:
the Python expression "".join(sorted(set(s.lower()))). -/
def normalizeLetters (s : PyStr) : PyStr := pySortedSet (pyLower s)

/-- string.ascii_lowercase. -/
def ascii_lowercase : PyStr := "abcdefghijklmnopqrstuvwxyz".data

/-- The state a CVCVGenerator instance holds after __init__:
self.vowels, self.consonants and self.first. -/
structure CVCVGenerator where
  vowels : PyStr
  consonants : PyStr
  first : Option PyStr
deriving DecidableEq, Repr

/-- CVCVGenerator.__init__ from gename.py (lines 13-54): builds the vowel
set from the default "aeiou" (plus "y" when include_y), or from the explicit
vowels argument when truthy, appends add_vowels, and normalizes; builds the
consonant set from the explicit consonants argument when truthy, otherwise
from every ASCII lowercase letter not in the computed vowel set, appends
add_consonants, and normalizes; stores first lowercased (None when falsy). -/
def CVCVGenerator.init (vowels consonants add_vowels add_consonants : Option PyStr)
    (include_y : Bool) (first : Option PyStr) : CVCVGenerator :=
  let default_vowels : PyStr := "aeiou".data ++ (if include_y then "y".data else [])
  let base_vowels : PyStr := if pyTruthy vowels then vowels.getD [] else default_vowels
  let base_vowels : PyStr :=
    if pyTruthy add_vowels then base_vowels ++ add_vowels.getD [] else base_vowels
  let selfVowels : PyStr := normalizeLetters base_vowels
  let base_consonants : PyStr :=
    if pyTruthy consonants then consonants.getD []
    else ascii_lowercase.filter (fun c => !selfVowels.contains c)
  let base_consonants : PyStr :=
    if pyTruthy add_consonants then base_consonants ++ add_consonants.getD []
    else base_consonants
  { vowels := selfVowels
    consonants := normalizeLetters base_consonants
    first := if pyTruthy first then some (pyLower (first.getD [])) else none }

/-- itertools.product over four axes: nested loops with the rightmost axis
varying fastest, each tuple rendered as the 4-character string c1+v1+c2+v2. -/
def prod4 (l1 l2 l3 l4 : PyStr) : List PyStr :=
  l1.flatMap (fun c1 =>
    l2.flatMap (fun v1 =>
      l3.flatMap (fun c2 =>
        l4.map (fun v2 => [c1, v1, c2, v2]))))

/-- The first-position alphabet chosen inside CVCVGenerator.generate:
self.first when truthy, otherwise the whole consonant set. -/
def CVCVGenerator.first_letters (g : CVCVGenerator) : PyStr :=
  if pyTruthy g.first then g.first.getD [] else g.consonants

/-- CVCVGenerator.generate from gename.py (lines 56-72): when self.first is
truthy it must occur in the consonant string (Python substring test) or a
ValueError is raised; otherwise the whole consonant set is used for the
first position, and the CVCV strings are enumerated by itertools.product. -/
def CVCVGenerator.generate (g : CVCVGenerator) : Except String (List PyStr) :=
  if pyTruthy g.first then
    if isSubstring (g.first.getD []) g.consonants then
      .ok (prod4 (g.first.getD []) g.vowels g.consonants g.vowels)
    else
      .error ("First letter must exist in consonant set.")
  else
    .ok (prod4 g.consonants g.vowels g.consonants g.vowels)

/-- The NameFilter class hierarchy of gename.py (lines 77-98): the base class
and its three refining subclasses, as a closed set of filter objects. -/
inductive NameFilter
  | NoFilter
  | OnlyRepeatingVowels
  | OnlyRepeatingConsonants
  | OnlyRepeatingBoth
deriving DecidableEq, Repr

/-- The apply method of each NameFilter subclass: NoFilter inherits the base
method returning True; the others compare fixed character positions of the
name (Python name[i] indexing, total here via getD since every name the
engine filters has length at least four). -/
def NameFilter.apply : NameFilter → PyStr → Bool
  | .NoFilter, _ => true
  | .OnlyRepeatingVowels, name => name.getD 1 ' ' == name.getD 3 ' '
  | .OnlyRepeatingConsonants, name => name.getD 0 ' ' == name.getD 2 ' '
  | .OnlyRepeatingBoth, name =>
      (name.getD 0 ' ' == name.getD 2 ' ') && (name.getD 1 ' ' == name.getD 3 ' ')

/-- get_filter from gename.py (lines 101-108): a dictionary lookup on the
filter-kind string, falling back to NoFilter for any unknown key. -/
def get_filter (filter_type : String) : NameFilter :=
  if filter_type = "none" then .NoFilter
  else if filter_type = "repeat_vowels" then .OnlyRepeatingVowels
  else if filter_type = "repeat_consonants" then .OnlyRepeatingConsonants
  else if filter_type = "repeat_both" then .OnlyRepeatingBoth
  else .NoFilter

/-- The state a NameEngine instance holds after __init__. -/
structure NameEngine where
  generator : CVCVGenerator
  name_filter : NameFilter
  suffix : PyStr
deriving DecidableEq, Repr

/-- The loop body of NameEngine.run: for each generated name, yield
name + suffix whenever the filter accepts the (unsuffixed) name. -/
def runLoop (filt : NameFilter) (sfx : PyStr) : List PyStr → List PyStr
  | [] => []
  | name :: rest =>
      if filt.apply name then (name ++ sfx) :: runLoop filt sfx rest
      else runLoop filt sfx rest

/-- NameEngine.run from gename.py (lines 121-124): iterate the generator,
keep the names the filter accepts, and append the suffix to each. A
ValueError raised by generate propagates when the sequence is consumed. -/
def NameEngine.run (e : NameEngine) : Except String (List PyStr) :=
  (e.generator.generate).map (runLoop e.name_filter e.suffix)

/-- Python "\n".join(names). -/
def joinNL (names : List PyStr) : PyStr := List.intercalate ['\n'] names

/-- One step of building the grouped dictionary:
grouped.setdefault(name[0], []).append(name).  Keys are the one-character
strings name[0]; an existing key has the name appended to its list, a new
key is inserted at the end (Python dicts preserve insertion order). -/
def addToGroup (g : List (PyStr × List PyStr)) (k : PyStr) (n : PyStr) :
    List (PyStr × List PyStr) :=
  match g with
  | [] => [(k, [n])]
  | (k0, v) :: rest =>
      if k0 = k then (k0, v ++ [n]) :: rest else (k0, v) :: addToGroup rest k n

/-- The grouped dictionary built by the first loop of export_grouped. -/
def buildGrouped (names : List PyStr) : List (PyStr × List PyStr) :=
  names.foldl (fun g n => addToGroup g (n.take 1) n) []

/-- grouped.get(letter, []): association-list lookup with default. -/
def lookupGroup (g : List (PyStr × List PyStr)) (k : PyStr) : List PyStr :=
  match g with
  | [] => []
  | (k0, v) :: rest => if k0 = k then v else lookupGroup rest k

/-- The allowed-letter set computed inside export_grouped: the singleton
containing self.generator.first when it is truthy, otherwise one
one-character string per consonant.  Python builds a set here; its
enumeration order is canonicalized to the (sorted, duplicate-free)
consonant order of the generator. -/
def NameEngine.allowed_letters (e : NameEngine) : List PyStr :=
  if pyTruthy e.generator.first then [e.generator.first.getD []]
  else e.generator.consonants.map (fun c => [c])

/-- Python filename.replace(".txt", ""): removes every (leftmost,
non-overlapping) occurrence of ".txt" from the file name. -/
def pyReplaceTxt : PyStr → PyStr
  | '.' :: 't' :: 'x' :: 't' :: rest => pyReplaceTxt rest
  | c :: rest => c :: pyReplaceTxt rest
  | [] => []

/-- glob.glob(os.path.join(folder, "*.txt")) over a folder whose entries are
the given file names: the entries ending in ".txt" that do not start with a
dot (glob does not match hidden files). -/
def globTxt (folder_files : List PyStr) : List PyStr :=
  folder_files.filter (fun f => ".txt".data.isSuffixOf f && !(f.headD ' ' == '.'))

/-- The file-system effects and the return value of one export_grouped call:
which pre-existing files it removes, which files it writes (with their
contents), and the returned pair of written paths and total count.
ret is none when the ValueError from generate propagates, in which case the
call performs no deletion and no write (the grouping loop runs before the
delete and write loops). -/
structure ExportOutcome where
  deleted : List PyStr
  written : List (PyStr × PyStr)
  ret : Option (List PyStr × Nat)
deriving DecidableEq, Repr

/-- NameEngine.export_grouped, modelled on the copy in main.py (lines
80-103), which returns the written paths and the total count; the copy in
gename.py (lines 126-156) performs the identical deletions and writes but
only prints and returns None.  The folder is modelled by the list of file
names it already contains; os.makedirs is a directory-level effect that
touches no file.  Fully consumes run(); on a ValueError no file is deleted
or written.  Otherwise deletes every globbed .txt file whose name with all
".txt" occurrences removed is not an allowed letter, then writes one
<letter>.txt per allowed letter containing the newline-joined group. -/
def NameEngine.export_grouped (e : NameEngine) (folder_files : List PyStr) :
    ExportOutcome :=
  match e.run with
  | .error _ => { deleted := [], written := [], ret := none }
  | .ok names =>
      let grouped := buildGrouped names
      let allowed := e.allowed_letters
      let deleted :=
        (globTxt folder_files).filter (fun f => !(allowed.contains (pyReplaceTxt f)))
      let written := allowed.map (fun letter =>
        (letter ++ ".txt".data, joinNL (lookupGroup grouped letter)))
      { deleted := deleted
        written := written
        ret := some (written.map (fun w => w.1), (grouped.map (fun kv => kv.2.length)).sum) }

/-!
The GUI file main.py embeds its own copy of the generator, filters and
engine worker functions (main.py lines 18-103).  They are re-translated here
verbatim in their own namespace so that the two cores can be compared.
-/

namespace GUI

/-- CVCVGenerator.__init__ as written in main.py (lines 19-36). -/
def init (vowels consonants add_vowels add_consonants : Option PyStr)
    (include_y : Bool) (first : Option PyStr) : CVCVGenerator :=
  let default_vowels : PyStr := "aeiou".data ++ (if include_y then "y".data else [])
  let base_vowels : PyStr := if pyTruthy vowels then vowels.getD [] else default_vowels
  let base_vowels : PyStr :=
    if pyTruthy add_vowels then base_vowels ++ add_vowels.getD [] else base_vowels
  let selfVowels : PyStr := normalizeLetters base_vowels
  let base_consonants : PyStr :=
    if pyTruthy consonants then consonants.getD []
    else ascii_lowercase.filter (fun c => !selfVowels.contains c)
  let base_consonants : PyStr :=
    if pyTruthy add_consonants then base_consonants ++ add_consonants.getD []
    else base_consonants
  { vowels := selfVowels
    consonants := normalizeLetters base_consonants
    first := if pyTruthy first then some (pyLower (first.getD [])) else none }

/-- CVCVGenerator.generate as written in main.py (lines 38-46). -/
def generate (g : CVCVGenerator) : Except String (List PyStr) :=
  if pyTruthy g.first then
    if isSubstring (g.first.getD []) g.consonants then
      .ok (prod4 (g.first.getD []) g.vowels g.consonants g.vowels)
    else
      .error ("First letter must exist in consonant set.")
  else
    .ok (prod4 g.consonants g.vowels g.consonants g.vowels)

/-- The apply methods of the four filter classes of main.py (lines 49-59). -/
def apply : NameFilter → PyStr → Bool
  | .NoFilter, _ => true
  | .OnlyRepeatingVowels, n => n.getD 1 ' ' == n.getD 3 ' '
  | .OnlyRepeatingConsonants, n => n.getD 0 ' ' == n.getD 2 ' '
  | .OnlyRepeatingBoth, n =>
      (n.getD 0 ' ' == n.getD 2 ' ') && (n.getD 1 ' ' == n.getD 3 ' ')

/-- The loop body of NameEngine.run as written in main.py. -/
def runLoop (filt : NameFilter) (sfx : PyStr) : List PyStr → List PyStr
  | [] => []
  | name :: rest =>
      if apply filt name then (name ++ sfx) :: runLoop filt sfx rest
      else runLoop filt sfx rest

/-- NameEngine.run as written in main.py (lines 75-78). -/
def run (e : NameEngine) : Except String (List PyStr) :=
  (generate e.generator).map (runLoop e.name_filter e.suffix)

end GUI

/-- Spec-side filter predicate, written from the specification text (section
4.3): none always accepts; repeat_vowels accepts iff the character at
position 1 equals the character at position 3; repeat_consonants accepts iff
the character at position 0 equals the character at position 2; repeat_both
is the conjunction of the two. -/
def specFilterAccepts : NameFilter → PyStr → Bool
  | .NoFilter, _ => true
  | .OnlyRepeatingVowels, n => n.getD 1 ' ' == n.getD 3 ' '
  | .OnlyRepeatingConsonants, n => n.getD 0 ' ' == n.getD 2 ' '
  | .OnlyRepeatingBoth, n =>
      (n.getD 0 ' ' == n.getD 2 ' ') && (n.getD 1 ' ' == n.getD 3 ' ')

/-- Spec-side definition, written from the words of claim C4: the vowel set
is the lowercased, deduplicated, sorted characters of (the explicit vowels
if provided, else "aeiou" plus "y" when the include-Y flag is set)
concatenated with any additional vowels. -/
def specVowelSet (vowels add_vowels : Option PyStr) (include_y : Bool) : PyStr :=
  normalizeLetters
    ((if pyTruthy vowels then vowels.getD []
      else "aeiou".data ++ (if include_y then "y".data else [])) ++ add_vowels.getD [])

/-- Spec-side definition, written from the words of claim C4: the consonant
set is the lowercased, deduplicated, sorted characters of (the explicit
consonants if provided, else every ASCII lowercase letter not in the
computed vowel set) concatenated with any additional consonants. -/
def specConsonantSet (vowels consonants add_vowels add_consonants : Option PyStr)
    (include_y : Bool) : PyStr :=
  normalizeLetters
    ((if pyTruthy consonants then consonants.getD []
      else ascii_lowercase.filter
        (fun c => !(specVowelSet vowels add_vowels include_y).contains c))
      ++ add_consonants.getD [])

/-- The default configuration with the first letter pinned to b
(the scenario of spec section 8 and claims C2 and C3). -/
def gDefaultB : CVCVGenerator :=
  CVCVGenerator.init none none none none false (some ("b".data))

/-- A small configuration (vowels a, consonants b, no pin) used as a
concrete input by several witnesses. -/
def gAB : CVCVGenerator :=
  CVCVGenerator.init (some ("a".data)) (some ("b".data)) none none false none

/-- An engine over gAB with no filtering and no suffix. -/
def eAB : NameEngine := ⟨gAB, NameFilter.NoFilter, []⟩

/-! ### Helper lemmas -/

theorem isSubstring_singleton (a : Char) (l : PyStr) :
    isSubstring [a] l = true ↔ a ∈ l := by
  induction l with
  | nil => simp [isSubstring, List.isPrefixOf]
  | cons c rest ih => simp [isSubstring, List.isPrefixOf, ih]

theorem toNat_ofNat_valid (m : Nat) (h : m.isValidChar) :
    (Char.ofNat m).toNat = m := by
  rw [Char.ofNat, dif_pos h]; rfl

theorem toLower_toLower (c : Char) : c.toLower.toLower = c.toLower := by
  simp only [Char.toLower]
  by_cases h : c.toNat ≥ 65 ∧ c.toNat ≤ 90
  · rw [if_pos h]
    have hv : Nat.isValidChar (c.toNat + 32) := Or.inl (by omega)
    have ht : (Char.ofNat (c.toNat + 32)).toNat = c.toNat + 32 :=
      toNat_ofNat_valid _ hv
    rw [ht, if_neg (by omega)]
  · rw [if_neg h, if_neg h]

theorem length_flatMap_const {α β : Type} (l : List α) (f : α → List β) (k : Nat)
    (h : ∀ a ∈ l, (f a).length = k) : (l.flatMap f).length = l.length * k := by
  induction l with
  | nil => simp
  | cons a as ih =>
      simp only [List.flatMap_cons, List.length_append, List.length_cons]
      rw [h a (by simp), ih (fun b hb => h b (by simp [hb]))]
      ring

theorem length_prod4 (l1 l2 l3 l4 : PyStr) :
    (prod4 l1 l2 l3 l4).length =
      l1.length * l2.length * l3.length * l4.length := by
  unfold prod4
  rw [length_flatMap_const _ _ (l2.length * (l3.length * l4.length))]
  · ring
  · intro c1 _
    rw [length_flatMap_const _ _ (l3.length * l4.length)]
    intro v1 _
    rw [length_flatMap_const _ _ l4.length]
    intro c2 _
    exact List.length_map _ _

theorem mem_prod4 {l1 l2 l3 l4 : PyStr} {n : PyStr} (h : n ∈ prod4 l1 l2 l3 l4) :
    ∃ c1 ∈ l1, ∃ v1 ∈ l2, ∃ c2 ∈ l3, ∃ v2 ∈ l4, n = [c1, v1, c2, v2] := by
  simp only [prod4, List.mem_flatMap, List.mem_map] at h
  obtain ⟨c1, h1, v1, h2, c2, h3, v2, h4, rfl⟩ := h
  exact ⟨c1, h1, v1, h2, c2, h3, v2, h4, rfl⟩

theorem getElem?_flatMap_const {α β : Type} (l : List α) (f : α → List β)
    (k i j : Nat) (h : ∀ a ∈ l, (f a).length = k) (hi : i < l.length)
    (hj : j < k) :
    (l.flatMap f)[i * k + j]? = (f (l.get ⟨i, hi⟩))[j]? := by
  induction l generalizing i with
  | nil => simp at hi
  | cons a as ih =>
      cases i with
      | zero =>
          simp only [List.flatMap_cons, Nat.zero_mul, Nat.zero_add]
          rw [List.getElem?_append,
            if_pos (by rw [h a (by simp)]; exact hj)]
          rfl
      | succ i =>
          have hs : (i + 1) * k + j = k + (i * k + j) := by ring
          simp only [List.flatMap_cons, hs]
          rw [List.getElem?_append, if_neg (by rw [h a (by simp)]; omega),
            h a (by simp)]
          have hsub : k + (i * k + j) - k = i * k + j := by omega
          rw [hsub]
          have hi2 : i < as.length := by simpa using hi
          exact ih i (fun b hb => h b (List.mem_cons_of_mem a hb)) hi2

theorem mixed_radix_lt {i a j b : Nat} (hi : i < a) (hj : j < b) :
    i * b + j < a * b := by
  calc i * b + j < i * b + b := by omega
    _ = (i + 1) * b := by ring
    _ ≤ a * b := Nat.mul_le_mul (by omega) (Nat.le_refl b)

theorem runLoop_eq_filter_map (filt : NameFilter) (sfx : PyStr) (l : List PyStr) :
    runLoop filt sfx l = (l.filter filt.apply).map (fun n => n ++ sfx) := by
  induction l with
  | nil => rfl
  | cons n rest ih =>
      by_cases h : filt.apply n <;>
        simp [runLoop, List.filter_cons, h, ih]

theorem apply_eq_specFilterAccepts (filt : NameFilter) (n : PyStr) :
    filt.apply n = specFilterAccepts filt n := by
  cases filt <;> rfl

theorem lookupGroup_addToGroup (g : List (PyStr × List PyStr)) (k0 n k : PyStr) :
    lookupGroup (addToGroup g k0 n) k =
      if k0 = k then lookupGroup g k ++ [n] else lookupGroup g k := by
  induction g with
  | nil =>
      by_cases h : k0 = k <;> simp [addToGroup, lookupGroup, h]
  | cons kv rest ih =>
      obtain ⟨k1, v⟩ := kv
      by_cases h1 : k1 = k0
      · subst h1
        by_cases h2 : k1 = k <;> simp [addToGroup, lookupGroup, h2]
      · by_cases h2 : k1 = k
        · subst h2
          have h4 : ¬ k0 = k1 := fun h => h1 (Eq.symm h)
          simp [addToGroup, h1, lookupGroup, h4]
        · simp [addToGroup, h1, lookupGroup, h2, ih]

theorem lookupGroup_foldl (names : List PyStr) (g : List (PyStr × List PyStr))
    (k : PyStr) :
    lookupGroup (names.foldl (fun g n => addToGroup g (n.take 1) n) g) k =
      lookupGroup g k ++ names.filter (fun n => n.take 1 == k) := by
  induction names generalizing g with
  | nil => simp
  | cons n rest ih =>
      simp only [List.foldl_cons, List.filter_cons]
      rw [ih]
      by_cases h : n.take 1 = k
      · rw [lookupGroup_addToGroup, if_pos h]
        simp [h, List.append_assoc]
      · rw [lookupGroup_addToGroup, if_neg h]
        simp [h]

theorem lookupGroup_buildGrouped (names : List PyStr) (k : PyStr) :
    lookupGroup (buildGrouped names) k = names.filter (fun n => n.take 1 == k) := by
  unfold buildGrouped
  rw [lookupGroup_foldl]
  simp [lookupGroup]

theorem sum_addToGroup (g : List (PyStr × List PyStr)) (k0 n : PyStr) :
    ((addToGroup g k0 n).map (fun kv => kv.2.length)).sum =
      ((g.map (fun kv => kv.2.length)).sum) + 1 := by
  induction g with
  | nil => simp [addToGroup]
  | cons kv rest ih =>
      obtain ⟨k1, v⟩ := kv
      by_cases h : k1 = k0 <;> simp [addToGroup, h, ih] <;> omega

theorem sum_foldl_grouped (names : List PyStr) (g : List (PyStr × List PyStr)) :
    (((names.foldl (fun g n => addToGroup g (n.take 1) n) g)).map
        (fun kv => kv.2.length)).sum =
      ((g.map (fun kv => kv.2.length)).sum) + names.length := by
  induction names generalizing g with
  | nil => simp
  | cons n rest ih =>
      simp only [List.foldl_cons, List.length_cons]
      rw [ih, sum_addToGroup]
      omega

theorem sum_buildGrouped (names : List PyStr) :
    ((buildGrouped names).map (fun kv => kv.2.length)).sum = names.length := by
  unfold buildGrouped
  rw [sum_foldl_grouped]
  simp

theorem getD_eq_nil_of_falsy (o : Option PyStr) (h : pyTruthy o = false) :
    o.getD [] = [] := by
  simp [pyTruthy] at h
  exact h

theorem except_map_eq_ok {ε α β : Type} {f : α → β} {x : Except ε α} {y : β}
    (h : x.map f = .ok y) : ∃ v, x = .ok v ∧ y = f v := by
  cases x with
  | error msg =>
      have h2 : (Except.error msg : Except ε β) = .ok y := h
      exact Except.noConfusion h2
  | ok v =>
      have h2 : (Except.ok (f v) : Except ε β) = .ok y := h
      exact ⟨v, rfl, (Except.ok.inj h2).symm⟩

/-! ### Claim theorems -/

/-- Claim C1: for every configuration, NameEngine.run yields exactly those
generated 4-character CVCV cores that satisfy the selected filter predicate
(none: always true; repeat_vowels: character 1 equals character 3;
repeat_consonants: character 0 equals character 2; repeat_both: both), each
with the suffix appended after the predicate is evaluated on the unsuffixed
core, in the same relative order as the generator emits them. -/
theorem run_yields_filtered_cores_with_suffix
    (g : CVCVGenerator) (filt : NameFilter) (sfx : PyStr) (names : List PyStr)
    (h : g.generate = .ok names) :
    NameEngine.run ⟨g, filt, sfx⟩ =
      .ok ((names.filter (specFilterAccepts filt)).map (fun n => n ++ sfx)) := by
  have happ : NameFilter.apply filt = specFilterAccepts filt :=
    funext (apply_eq_specFilterAccepts filt)
  simp only [NameEngine.run, h, Except.map, runLoop_eq_filter_map, happ]

/-- Witness for C1: the single core baba of the vowels-a consonants-b
configuration passes the repeat_vowels filter and only then gets the io
suffix, yielding babaio. -/
theorem run_yields_filtered_cores_with_suffix_witness :
    NameEngine.run ⟨gAB, NameFilter.OnlyRepeatingVowels, "io".data⟩ =
      .ok [("babaio").data] := by
  have h := run_yields_filtered_cores_with_suffix gAB
    NameFilter.OnlyRepeatingVowels ("io".data) [("baba").data] (by rfl)
  exact h.trans (by rfl)

/-- Claim C4: the letter set builder produces the lowercased, deduplicated,
sorted vowel set (explicit vowels if provided, else aeiou plus y when the
include-Y flag is set) concatenated with any additional vowels, and the
analogous consonant set (explicit consonants if provided, else every ASCII
lowercase letter not in the computed vowel set) concatenated with any
additional consonants. -/
theorem letter_set_builder_matches_spec
    (v c av ac : Option PyStr) (iy : Bool) (f : Option PyStr) :
    (CVCVGenerator.init v c av ac iy f).vowels = specVowelSet v av iy ∧
    (CVCVGenerator.init v c av ac iy f).consonants = specConsonantSet v c av ac iy := by
  have hv : (CVCVGenerator.init v c av ac iy f).vowels = specVowelSet v av iy := by
    simp only [CVCVGenerator.init, specVowelSet]
    by_cases hav : pyTruthy av
    · simp [hav]
    · have h0 := getD_eq_nil_of_falsy av (by simpa using hav)
      simp [hav, h0]
  refine ⟨hv, ?_⟩
  simp only [CVCVGenerator.init, specConsonantSet]
  simp only [CVCVGenerator.init] at hv
  rw [hv]
  by_cases hac : pyTruthy ac
  · simp [hac]
  · have h0 := getD_eq_nil_of_falsy ac (by simpa using hac)
    simp [hac, h0]

/-- Claim C8: the generation pipeline is duplicated, not shared by import,
between the CLI file gename.py and the GUI file main.py; the two embedded
cores (constructor, generate, filter apply, run) are extensionally equal. -/
theorem cli_and_gui_cores_extensionally_equal :
    (∀ v c av ac iy f, CVCVGenerator.init v c av ac iy f = GUI.init v c av ac iy f) ∧
    (∀ g : CVCVGenerator, g.generate = GUI.generate g) ∧
    (∀ filt (n : PyStr), NameFilter.apply filt n = GUI.apply filt n) ∧
    (∀ e : NameEngine, e.run = GUI.run e) := by
  have happ : ∀ filt (n : PyStr), NameFilter.apply filt n = GUI.apply filt n := by
    intro filt n
    cases filt <;> rfl
  have hloop : ∀ filt sfx (l : List PyStr), runLoop filt sfx l = GUI.runLoop filt sfx l := by
    intro filt sfx l
    induction l with
    | nil => rfl
    | cons n rest ih => simp only [runLoop, GUI.runLoop, happ, ih]
  refine ⟨fun v c av ac iy f => rfl, fun g => rfl, happ, fun e => ?_⟩
  simp only [NameEngine.run, GUI.run]
  rw [show GUI.generate e.generator = CVCVGenerator.generate e.generator from rfl]
  congr 1
  funext l
  exact hloop e.name_filter e.suffix l

/-- Claim C9: get_filter returns the accept-all NoFilter for every
filter-kind string outside the closed set, so an unrecognized filter kind
behaves exactly like the filter kind none. -/
theorem get_filter_unknown_kind_defaults_to_nofilter (s : String)
    (h : ¬ s ∈ (["none", "repeat_vowels", "repeat_consonants", "repeat_both"] : List String)) :
    get_filter s = NameFilter.NoFilter ∧ get_filter s = get_filter ("none") ∧
    ∀ n : PyStr, (get_filter s).apply n = true := by
  simp only [List.mem_cons, List.not_mem_nil, or_false, not_or] at h
  obtain ⟨h1, h2, h3, h4⟩ := h
  have hs : get_filter s = NameFilter.NoFilter := by
    unfold get_filter
    rw [if_neg h1, if_neg h2, if_neg h3, if_neg h4]
  exact ⟨hs, by rw [hs]; decide, fun n => by rw [hs]; rfl⟩

/-- Witness for C9 at the unknown filter kind bogus. -/
theorem get_filter_unknown_kind_witness :
    get_filter ("bogus") = NameFilter.NoFilter ∧
    get_filter ("bogus") = get_filter ("none") ∧
    ∀ n : PyStr, (get_filter ("bogus")).apply n = true :=
  get_filter_unknown_kind_defaults_to_nofilter ("bogus") (by decide)

/-- Claim C10: the pinned first letter is lowercased before the
consonant-set membership check and before generation, so pinning an
uppercase letter whose lowercase form is in the consonant set succeeds and
yields exactly the same sequence as pinning its lowercase form. -/
theorem pinned_first_letter_lowercased
    (v c av ac : Option PyStr) (iy : Bool) (ch : Char)
    (hc : Char.toLower ch ∈ (CVCVGenerator.init v c av ac iy (some [ch])).consonants) :
    CVCVGenerator.init v c av ac iy (some [ch]) =
      CVCVGenerator.init v c av ac iy (some [Char.toLower ch]) ∧
    (CVCVGenerator.init v c av ac iy (some [ch])).first = some [Char.toLower ch] ∧
    ∃ names, (CVCVGenerator.init v c av ac iy (some [ch])).generate = .ok names := by
  have hfirst : (CVCVGenerator.init v c av ac iy (some [ch])).first =
      some [Char.toLower ch] := by
    simp [CVCVGenerator.init, pyTruthy, pyLower]
  have heq : CVCVGenerator.init v c av ac iy (some [ch]) =
      CVCVGenerator.init v c av ac iy (some [Char.toLower ch]) := by
    simp only [CVCVGenerator.init]
    congr 1
    simp [pyTruthy, pyLower, toLower_toLower]
  refine ⟨heq, hfirst, ?_⟩
  refine ⟨prod4 [Char.toLower ch] (CVCVGenerator.init v c av ac iy (some [ch])).vowels
    (CVCVGenerator.init v c av ac iy (some [ch])).consonants
    (CVCVGenerator.init v c av ac iy (some [ch])).vowels, ?_⟩
  simp only [CVCVGenerator.generate, hfirst]
  rw [if_pos (by simp [pyTruthy]), if_pos]
  · simp only [Option.getD_some]
  · simp only [Option.getD_some]
    exact (isSubstring_singleton _ _).mpr hc

/-- Witness for C10: pinning the uppercase B on the default letter sets. -/
theorem pinned_first_letter_lowercased_witness :
    CVCVGenerator.init none none none none false (some ['B']) =
      CVCVGenerator.init none none none none false (some [Char.toLower 'B']) ∧
    (CVCVGenerator.init none none none none false (some ['B'])).first =
      some [Char.toLower 'B'] ∧
    ∃ names, (CVCVGenerator.init none none none none false (some ['B'])).generate = .ok names :=
  pinned_first_letter_lowercased none none none none false 'B' (by decide)

set_option maxRecDepth 16384 in
/-- Claim C2: for every configuration whose pinned first letter (if any) is
in the consonant set, generate yields exactly first-alphabet times vowels
times consonants times vowels names, the first alphabet being the single
pinned letter when pinned and the whole consonant set otherwise, and every
name starts with a first-alphabet letter; in particular the default
configuration pinned to b yields exactly 1 x 5 x 21 x 5 = 525 names, all
starting with b. -/
theorem generate_count_formula (g : CVCVGenerator)
    (hpin : g.first = none ∨ ∃ c, g.first = some [c] ∧ c ∈ g.consonants) :
    (∃ names, g.generate = .ok names ∧
      names.length =
        g.first_letters.length * g.vowels.length * g.consonants.length * g.vowels.length ∧
      (g.first = none → g.first_letters = g.consonants) ∧
      (∀ c, g.first = some [c] → g.first_letters = [c]) ∧
      ∀ n ∈ names, n.headD ' ' ∈ g.first_letters) ∧
    gDefaultB.generate.map List.length = .ok 525 ∧
    gDefaultB.generate.map (fun ns => ns.all (fun n => n.headD ' ' == 'b')) = .ok true := by
  refine ⟨?_, by rfl, by rfl⟩
  rcases hpin with hnone | ⟨c, hsome, hc⟩
  · have hfl : g.first_letters = g.consonants := by
      unfold CVCVGenerator.first_letters
      rw [hnone]
      rfl
    refine ⟨prod4 g.consonants g.vowels g.consonants g.vowels, ?_, ?_, ?_, ?_, ?_⟩
    · simp only [CVCVGenerator.generate, hnone]
      rfl
    · rw [hfl, length_prod4]
    · intro _
      exact hfl
    · intro c' hcw
      rw [hnone] at hcw
      cases hcw
    · intro n hn
      obtain ⟨c1, hc1, v1, _, c2, _, v2, _, rfl⟩ := mem_prod4 hn
      rw [hfl]
      simpa using hc1
  · have hfl : g.first_letters = [c] := by
      unfold CVCVGenerator.first_letters
      rw [hsome]
      rfl
    refine ⟨prod4 [c] g.vowels g.consonants g.vowels, ?_, ?_, ?_, ?_, ?_⟩
    · simp only [CVCVGenerator.generate, hsome, Option.getD_some]
      rw [if_pos (by rfl), if_pos ((isSubstring_singleton c g.consonants).mpr hc)]
    · rw [hfl, length_prod4]
    · intro h0
      rw [hsome] at h0
      cases h0
    · intro c' hcw
      rw [hsome] at hcw
      simp only [Option.some.injEq, List.cons.injEq, and_true] at hcw
      rw [hfl, hcw]
    · intro n hn
      obtain ⟨c1, hc1, v1, _, c2, _, v2, _, rfl⟩ := mem_prod4 hn
      rw [hfl]
      simpa using hc1

/-- Witness for C2: the default configuration pinned to b satisfies the pin
hypothesis and yields the 525-name sequence. -/
theorem generate_count_formula_witness :
    (∃ names, gDefaultB.generate = .ok names ∧
      names.length =
        gDefaultB.first_letters.length * gDefaultB.vowels.length *
          gDefaultB.consonants.length * gDefaultB.vowels.length ∧
      (gDefaultB.first = none → gDefaultB.first_letters = gDefaultB.consonants) ∧
      (∀ c, gDefaultB.first = some [c] → gDefaultB.first_letters = [c]) ∧
      ∀ n ∈ names, n.headD ' ' ∈ gDefaultB.first_letters) ∧
    gDefaultB.generate.map List.length = .ok 525 ∧
    gDefaultB.generate.map (fun ns => ns.all (fun n => n.headD ' ' == 'b')) = .ok true :=
  generate_count_formula gDefaultB (Or.inr ⟨'b', by rfl, by decide⟩)

/-- Claim C3: generate enumerates in standard cartesian-product nesting
order, the last axis varying fastest: the name at flat index
((i1 * len2 + i2) * len3 + i3) * len4 + i4 is formed from the i1-th first
letter, the i2-th vowel, the i3-th consonant and the i4-th vowel; with the
default letter sets and the first letter pinned to b, the first three names
in order are baba, babe, babi. -/
theorem generate_enumeration_order
    (l1 l2 l3 l4 : PyStr) (i1 i2 i3 i4 : Nat)
    (h1 : i1 < l1.length) (h2 : i2 < l2.length) (h3 : i3 < l3.length)
    (h4 : i4 < l4.length) :
    (prod4 l1 l2 l3 l4)[((i1 * l2.length + i2) * l3.length + i3) * l4.length + i4]? =
      some [l1.get ⟨i1, h1⟩, l2.get ⟨i2, h2⟩, l3.get ⟨i3, h3⟩, l4.get ⟨i4, h4⟩] ∧
    gDefaultB.generate.map (fun ns => ns.take 3) =
      .ok [("baba").data, ("babe").data, ("babi").data] := by
  refine ⟨?_, by rfl⟩
  have hR2 : i3 * l4.length + i4 < l3.length * l4.length := mixed_radix_lt h3 h4
  have hR1 : i2 * (l3.length * l4.length) + (i3 * l4.length + i4) <
      l2.length * (l3.length * l4.length) := mixed_radix_lt h2 hR2
  have hidx : ((i1 * l2.length + i2) * l3.length + i3) * l4.length + i4 =
      i1 * (l2.length * (l3.length * l4.length)) +
        (i2 * (l3.length * l4.length) + (i3 * l4.length + i4)) := by ring
  unfold prod4
  rw [hidx]
  rw [getElem?_flatMap_const _ _ (l2.length * (l3.length * l4.length)) i1
      (i2 * (l3.length * l4.length) + (i3 * l4.length + i4))
      (fun c1 _ => by
        rw [length_flatMap_const _ _ (l3.length * l4.length)
          (fun v1 _ => by
            rw [length_flatMap_const _ _ l4.length (fun c2 _ => List.length_map _ _)])])
      h1 hR1]
  rw [getElem?_flatMap_const _ _ (l3.length * l4.length) i2 (i3 * l4.length + i4)
      (fun v1 _ => by
        rw [length_flatMap_const _ _ l4.length (fun c2 _ => List.length_map _ _)])
      h2 hR2]
  rw [getElem?_flatMap_const _ _ l4.length i3 i4 (fun c2 _ => List.length_map _ _) h3 h4]
  rw [List.getElem?_map, List.getElem?_eq_getElem h4]
  rfl

/-- Witness for C3: over the axes b, aeiou, bcd, aeiou, the name at flat
index ((0*5+0)*3+1)*5+1 = 6 combines the letters at indices 0, 0, 1, 1 of
the four axes, confirming that the last axis varies fastest. -/
theorem generate_enumeration_order_witness :
    (prod4 ("b".data) ("aeiou".data) ("bcd".data) ("aeiou".data))[
        ((0 * ("aeiou".data).length + 0) * ("bcd".data).length + 1) *
          ("aeiou".data).length + 1]? =
      some [("b".data).get ⟨0, by decide⟩, ("aeiou".data).get ⟨0, by decide⟩,
        ("bcd".data).get ⟨1, by decide⟩, ("aeiou".data).get ⟨1, by decide⟩] ∧
    gDefaultB.generate.map (fun ns => ns.take 3) =
      .ok [("baba").data, ("babe").data, ("babi").data] :=
  generate_enumeration_order ("b".data) ("aeiou".data) ("bcd".data) ("aeiou".data)
    0 0 1 1 (by decide) (by decide) (by decide) (by decide)

/-- Claim C5: for every configuration with a pinned first letter not in the
consonant set, generation (and export, which consumes it) fails with the
invalid-configuration ValueError before any name is produced, and export
deletes no file, writes no file and returns nothing. -/
theorem invalid_pin_fails_without_side_effects
    (g : CVCVGenerator) (filt : NameFilter) (sfx : PyStr) (files : List PyStr)
    (c : Char) (hpin : g.first = some [c]) (hc : ¬ c ∈ g.consonants) :
    (∃ msg, g.generate = .error msg) ∧
    (∃ msg, NameEngine.run ⟨g, filt, sfx⟩ = .error msg) ∧
    (NameEngine.export_grouped ⟨g, filt, sfx⟩ files).deleted = [] ∧
    (NameEngine.export_grouped ⟨g, filt, sfx⟩ files).written = [] ∧
    (NameEngine.export_grouped ⟨g, filt, sfx⟩ files).ret = none := by
  have hsub : isSubstring [c] g.consonants = false := by
    cases hx : isSubstring [c] g.consonants with
    | false => rfl
    | true => exact absurd ((isSubstring_singleton c g.consonants).mp hx) hc
  have hgen : g.generate = .error ("First letter must exist in consonant set.") := by
    simp only [CVCVGenerator.generate, hpin, Option.getD_some]
    rw [if_pos (by rfl), if_neg (by simp [hsub])]
  have hrun : NameEngine.run ⟨g, filt, sfx⟩ =
      .error ("First letter must exist in consonant set.") := by
    simp only [NameEngine.run, hgen]
    rfl
  refine ⟨⟨_, hgen⟩, ⟨_, hrun⟩, ?_, ?_, ?_⟩ <;>
    simp [NameEngine.export_grouped, hrun]

/-- Witness for C5: pinning a (a vowel, hence not a consonant) on the
default letter sets. -/
theorem invalid_pin_fails_witness :
    (∃ msg, (CVCVGenerator.init none none none none false (some ("a".data))).generate =
      .error msg) ∧
    (∃ msg, NameEngine.run ⟨CVCVGenerator.init none none none none false (some ("a".data)),
      NameFilter.NoFilter, []⟩ = .error msg) ∧
    (NameEngine.export_grouped ⟨CVCVGenerator.init none none none none false (some ("a".data)),
      NameFilter.NoFilter, []⟩ [("b".data ++ ".txt".data)]).deleted = [] ∧
    (NameEngine.export_grouped ⟨CVCVGenerator.init none none none none false (some ("a".data)),
      NameFilter.NoFilter, []⟩ [("b".data ++ ".txt".data)]).written = [] ∧
    (NameEngine.export_grouped ⟨CVCVGenerator.init none none none none false (some ("a".data)),
      NameFilter.NoFilter, []⟩ [("b".data ++ ".txt".data)]).ret = none :=
  invalid_pin_fails_without_side_effects
    (CVCVGenerator.init none none none none false (some ("a".data)))
    NameFilter.NoFilter [] [("b".data ++ ".txt".data)] 'a' (by rfl) (by decide)

/-- Claim C6: with a valid pin (or no pin), export_grouped writes, for each
letter of the allowed-letter set (the pinned letter if configured, else the
entire consonant set), a file named letter.txt containing the newline-joined
names starting with that letter (an empty file when no names matched), and
returns the written file paths together with the total count of exported
names; every exported name starts with an allowed letter. -/
theorem export_grouped_writes_per_letter_files
    (e : NameEngine) (files : List PyStr) (names : List PyStr)
    (hrun : e.run = .ok names)
    (hpin : e.generator.first = none ∨
      ∃ c, e.generator.first = some [c] ∧ c ∈ e.generator.consonants) :
    (e.export_grouped files).written =
      e.allowed_letters.map (fun letter =>
        (letter ++ ".txt".data, joinNL (names.filter (fun n => n.take 1 == letter)))) ∧
    (e.export_grouped files).ret =
      some (e.allowed_letters.map (fun letter => letter ++ ".txt".data), names.length) ∧
    ∀ n ∈ names, n.take 1 ∈ e.allowed_letters := by
  refine ⟨?_, ?_, ?_⟩
  · simp only [NameEngine.export_grouped, hrun]
    simp only [lookupGroup_buildGrouped]
  · simp only [NameEngine.export_grouped, hrun, sum_buildGrouped]
    simp [List.map_map, Function.comp]
  · have hrun2 : (e.generator.generate).map (runLoop e.name_filter e.suffix) = .ok names :=
      hrun
    obtain ⟨gnames, hg, hnames⟩ := except_map_eq_ok hrun2
    intro n hn
    rw [hnames, runLoop_eq_filter_map] at hn
    obtain ⟨m, hm, rfl⟩ := List.mem_map.mp hn
    have hmg : m ∈ gnames := (List.mem_filter.mp hm).1
    rcases hpin with hnone | ⟨c, hsome, hc⟩
    · have hgen2 : e.generator.generate =
          .ok (prod4 e.generator.consonants e.generator.vowels
            e.generator.consonants e.generator.vowels) := by
        simp only [CVCVGenerator.generate, hnone]
        rfl
      have hgn : gnames = prod4 e.generator.consonants e.generator.vowels
          e.generator.consonants e.generator.vowels :=
        Except.ok.inj (hg.symm.trans hgen2)
      obtain ⟨c1, hc1, v1, _, c2, _, v2, _, rfl⟩ := mem_prod4 (hgn ▸ hmg)
      have hal : e.allowed_letters = e.generator.consonants.map (fun x => [x]) := by
        unfold NameEngine.allowed_letters
        rw [hnone]
        rfl
      rw [hal]
      simp only [List.cons_append, List.take_succ_cons, List.take_zero]
      exact List.mem_map.mpr ⟨c1, hc1, rfl⟩
    · have hgen2 : e.generator.generate =
          .ok (prod4 [c] e.generator.vowels e.generator.consonants e.generator.vowels) := by
        simp only [CVCVGenerator.generate, hsome, Option.getD_some]
        rw [if_pos (by rfl), if_pos ((isSubstring_singleton c _).mpr hc)]
      have hgn : gnames = prod4 [c] e.generator.vowels
          e.generator.consonants e.generator.vowels :=
        Except.ok.inj (hg.symm.trans hgen2)
      obtain ⟨c1, hc1, v1, _, c2, _, v2, _, rfl⟩ := mem_prod4 (hgn ▸ hmg)
      have hal : e.allowed_letters = [[c]] := by
        unfold NameEngine.allowed_letters
        rw [hsome]
        rfl
      rw [hal]
      simp only [List.mem_singleton] at hc1
      simp [hc1]

/-- Witness for C6: the vowels-a consonants-b engine over an empty folder
writes the single file b.txt containing its one name baba. -/
theorem export_grouped_writes_witness :
    (eAB.export_grouped []).written =
      eAB.allowed_letters.map (fun letter =>
        (letter ++ ".txt".data, joinNL ((["baba".data]).filter (fun n => n.take 1 == letter)))) ∧
    (eAB.export_grouped []).ret =
      some (eAB.allowed_letters.map (fun letter => letter ++ ".txt".data),
        (["baba".data] : List PyStr).length) ∧
    ∀ n ∈ (["baba".data] : List PyStr), n.take 1 ∈ eAB.allowed_letters :=
  export_grouped_writes_per_letter_files eAB [] ["baba".data] (by rfl) (Or.inl (by rfl))

/-- Claim C7 counterexample: with allowed letter b, export_grouped deletes
the pre-existing file notes.txt although its base name notes has five
characters, refuting the claim that only single-letter output files are
ever deleted and that every other pre-existing file is left unchanged. -/
theorem export_grouped_deletes_multichar_txt_file :
    (eAB.export_grouped [("notes.txt").data]).deleted = [("notes.txt").data] ∧
    (pyReplaceTxt (("notes.txt").data)).length = 5 :=
  ⟨rfl, rfl⟩

/-- Claim C7 (amended): during export_grouped, a pre-existing file in the
target folder is deleted exactly when it is a non-hidden file matching
*.txt whose name with every occurrence of .txt removed is not in the
allowed-letter set — including .txt files whose base name is longer than
one character; files not matching *.txt are never deleted. -/
theorem export_grouped_deletes_exactly_stale_txt
    (e : NameEngine) (files : List PyStr) (names : List PyStr) (f : PyStr)
    (hrun : e.run = .ok names) (hf : f ∈ files) :
    (f ∈ (e.export_grouped files).deleted ↔
      (".txt".data.isSuffixOf f = true ∧ ¬ f.headD ' ' = '.' ∧
        ¬ pyReplaceTxt f ∈ e.allowed_letters)) := by
  simp only [NameEngine.export_grouped, hrun, globTxt, List.filter_filter]
  simp only [List.mem_filter, hf, true_and, Bool.and_eq_true, Bool.not_eq_true',
    decide_eq_true_eq]
  simp [and_assoc]
  tauto

/-- Witness for the amended C7 at the concrete stale file notes.txt. -/
theorem export_grouped_deletes_stale_witness :
    (("notes.txt").data ∈ (eAB.export_grouped [("notes.txt").data]).deleted ↔
      (".txt".data.isSuffixOf (("notes.txt").data) = true ∧
        ¬ (("notes.txt").data).headD ' ' = '.' ∧
        ¬ pyReplaceTxt (("notes.txt").data) ∈ eAB.allowed_letters)) :=
  export_grouped_deletes_exactly_stale_txt eAB [("notes.txt").data] ["baba".data]
    (("notes.txt").data) (by rfl) (by simp)

end ProductNameGenerator
